import Mathlib

/-!
# eventbrite/python_hive_utils — `hive_client.py`, shallow embedding

A model of the connection lifecycle (`openclose`, `session`), the streaming
`execute` cursor, the constructor existence check, and the schema-mutation
helpers (`add_column`, `remove_column`, `alter_column_type`) of
`src/hive_utils/hive_client.py`, with theorems settling the specification's
claims about them.

Stateful Python is embedded as explicit state passing over a transport state
(`TState`); every operation also produces the ordered trace of transport and
RPC events it performed, and a raised Python exception is an `Except.error`
carrying the state and trace as they stood at the raise.
-/

namespace HiveUtils

/-- A thrift metastore `FieldSchema`: column name, data type, comment. -/
structure FieldSchema where
  name : String
  type : String
  comment : String
deriving DecidableEq, Repr

/-- The `sd` (storage descriptor) of a metastore table; the client only
touches its column list `sd.cols`. -/
structure StorageDescriptor where
  cols : List FieldSchema
deriving DecidableEq, Repr

/-- A metastore table object as the client uses it. -/
structure Table where
  sd : StorageDescriptor
deriving DecidableEq, Repr

/-- Observable events at the transport / RPC boundary. `openT`/`closeT` are
the socket transitions; the rest are the thrift calls the client issues. -/
inductive Event where
  | openT : Event
  | closeT : Event
  | getDatabaseE : String → Event
  | executeE : String → Event
  | getSchemaE : Event
  | fetchNE : Nat → Event
  | getTableE : String → String → Event
  | alterTableE : String → String → List FieldSchema → Event
deriving DecidableEq, Repr

/-- Exceptions that can cross the wrapper's boundary. `userError` stands for
an arbitrary exception raised by a wrapped operation. -/
inductive HiveErr where
  | hiveClientException : String → HiveErr
  | thriftNoSuchObject : HiveErr
  | userError : HiveErr
deriving DecidableEq, Repr

/-- Transport state. `isOpen` is the socket's open flag; `keep_open` models
the truthiness of `getattr(transport, 'keep_open', None)` — an absent
attribute and `False` are both falsy, so one `Bool` suffices. -/
structure TState where
  isOpen : Bool
  keep_open : Bool
deriving DecidableEq, Repr

/-- Outcome of a client operation: the Python return-or-raise outcome, the
transport state left behind, and the trace of events performed (an exception
still records the events that happened before the raise). -/
structure Res (α : Type) where
  val : Except HiveErr α
  st : TState
  tr : List Event

/-- The `openclose(transport)` context manager (hive_client.py lines 15-21):
if `keep_open` is falsy, `transport.open()` before the body; run the body;
if `keep_open` is falsy (re-read after the body), `transport.close()` after.
The `yield` is not guarded by `try/finally`, so when the body raises, the
closing line is never reached: the exception propagates with the transport
left exactly as the body left it. -/
def openclose (body : TState → Res α) (ts : TState) : Res α :=
  let p :=
    if ts.keep_open then (ts, ([] : List Event))
    else ({ ts with isOpen := true }, [Event.openT])
  let r := body p.1
  match r.val with
  | .error e => ⟨.error e, r.st, p.2 ++ r.tr⟩
  | .ok a =>
    if r.st.keep_open then ⟨.ok a, r.st, p.2 ++ r.tr⟩
    else ⟨.ok a, { r.st with isOpen := false }, p.2 ++ r.tr ++ [Event.closeT]⟩

/-- The `HiveClient.session` context manager (lines 78-89): `open()`, set
`keep_open = True`, yield to the caller's block, then `close()` and
`keep_open = False`. Again no `try/finally`: if the caller's block raises,
neither the close nor the `keep_open` reset is executed. -/
def session (body : TState → Res α) (ts : TState) : Res α :=
  let r := body { ts with isOpen := true, keep_open := true }
  match r.val with
  | .error e => ⟨.error e, r.st, Event.openT :: r.tr⟩
  | .ok a =>
    ⟨.ok a, { r.st with isOpen := false, keep_open := false },
      Event.openT :: (r.tr ++ [Event.closeT])⟩

/-- The remote side as the client sees it: which databases exist and which
tables exist (by name), with their current schemas. -/
structure MetastoreEnv where
  databases : List String
  tables : List (String × Table)
deriving Repr

/-- The `get_table` thrift RPC: returns the table object, or raises
(`NoSuchObjectException`) when the table is absent. -/
def rpcGetTable (env : MetastoreEnv) (tbl : String) : Except HiveErr Table :=
  match env.tables.lookup tbl with
  | some t => .ok t
  | none => .error .thriftNoSuchObject

/-- `HiveClient.__init__` (lines 27-47): build a fresh transport (closed, no
`keep_open` attribute), then inside `openclose` call `get_database(db)` and
assert its result. The RPC raises when the database is absent; when present
it returns the (truthy) database object, so the `assert` passes. -/
def clientInit (env : MetastoreEnv) (db : String) : Res Unit :=
  openclose (fun ts =>
    if env.databases.contains db then ⟨.ok (), ts, [Event.getDatabaseE db]⟩
    else ⟨.error .thriftNoSuchObject, ts, [Event.getDatabaseE db]⟩) ⟨false, false⟩

/-- One record of a query result: a Python dict as an insertion-ordered
association list. -/
abbrev Record := List (String × String)

/-- Python `row.split('\t')` accumulator: split on every literal tab,
keeping empty fields (`''.split('\t') == ['']`). -/
def pySplitTabAux : List Char → List Char → List String
  | acc, [] => [String.mk acc.reverse]
  | acc, c :: cs =>
    if c = '\t' then String.mk acc.reverse :: pySplitTabAux [] cs
    else pySplitTabAux (c :: acc) cs

/-- Python `row.split('\t')`. -/
def pySplitTab (s : String) : List String := pySplitTabAux [] s.data

/-- Python dict assignment: an existing key keeps its position and gets the
new value; a new key is appended (dicts preserve insertion order). -/
def pyDictInsert (d : Record) (k v : String) : Record :=
  if d.any (fun p => p.1 == k) then
    d.map (fun p => if p.1 == k then (k, v) else p)
  else d ++ [(k, v)]

/-- Python `dict(pairs)`: fold the pairs into an insertion-ordered dict. -/
def pyDict (pairs : List (String × String)) : Record :=
  pairs.foldl (fun d p => pyDictInsert d p.1 p.2) []

/-- One yielded record of `execute`: `dict(zip(stypes, row.split('\t')))`.
`zip` truncates to the shorter list, as in Python. -/
def mkRecord (names : List String) (row : String) : Record :=
  pyDict (names.zip (pySplitTab row))

/-- The query server behind one `execute` call: the field names reported by
`getThriftSchema().fieldSchemas` and the successive batches served by
`fetchN`; once `batches` is exhausted, every further fetch returns the empty
batch. -/
structure Server where
  fieldNames : List String
  batches : List (List String)
deriving Repr

/-- The fetch loop of `execute` (lines 66-75): call `fetchN(500)`; if the
returned batch is empty, break; otherwise yield one record per row, in
order, and fetch again. -/
def fetchLoop (names : List String) : List (List String) → List Record × List Event
  | [] => ([], [Event.fetchNE 500])
  | b :: rest =>
    if b = [] then ([], [Event.fetchNE 500])
    else
      let r := fetchLoop names rest
      (b.map (mkRecord names) ++ r.1, Event.fetchNE 500 :: r.2)

/-- The body of `HiveClient.execute`, fully consumed: submit the query, read
the field names once from `getThriftSchema`, then run the fetch loop with
that fixed name list. -/
def executeGen (srv : Server) (q : String) : List Record × List Event :=
  let r := fetchLoop srv.fieldNames srv.batches
  (r.1, Event.executeE q :: Event.getSchemaE :: r.2)

/-- `HiveClient.execute` (lines 50-75), fully consumed, inside its
`openclose` scope. -/
def execute (srv : Server) (q : String) : TState → Res (List Record) :=
  openclose (fun ts =>
    let r := executeGen srv q
    ⟨.ok r.1, ts, r.2⟩)

/-- The row strings the fetch loop actually consumes: the concatenation of
the batches up to (excluding) the first empty one. -/
def yieldedRows : List (List String) → List String
  | [] => []
  | b :: rest => if b = [] then [] else b ++ yieldedRows rest

/-- Python equality between the string `column_name` and a thrift
`FieldSchema` object, as evaluated elementwise by
`column_name in table.sd.cols` in `add_column` (line 132): the generated
`__eq__` begins with an `isinstance` check, so a string never equals a
`FieldSchema` object. -/
def pyStrEqFieldSchema (_s : String) (_c : FieldSchema) : Bool := false

/-- `HiveClient.add_column` (lines 116-138): fetch the table, test
`column_name in table.sd.cols` (see `pyStrEqFieldSchema`), otherwise append
`FieldSchema(name=column_name, type=data_type, comment=comment)` and submit
the whole table via `alter_table`. -/
def add_column (env : MetastoreEnv) (db tbl col dt cm : String) :
    TState → Res Unit :=
  openclose (fun ts =>
    match rpcGetTable env tbl with
    | .error e => ⟨.error e, ts, [Event.getTableE db tbl]⟩
    | .ok t =>
      if t.sd.cols.any (pyStrEqFieldSchema col) then
        ⟨.error (.hiveClientException "column already exists"), ts,
          [Event.getTableE db tbl]⟩
      else
        ⟨.ok (), ts,
          [Event.getTableE db tbl,
           Event.alterTableE db tbl (t.sd.cols ++ [⟨col, dt, cm⟩])]⟩)

/-- `HiveClient.remove_column` (lines 140-163): fetch the table, filter out
the columns named `column_name`, then submit only when
`len(new_cols) - 1 == num_cols` — the comparison the source performs on
line 159 (integer arithmetic, hence `Int`). -/
def remove_column (env : MetastoreEnv) (db tbl col : String) :
    TState → Res Unit :=
  openclose (fun ts =>
    match rpcGetTable env tbl with
    | .error e => ⟨.error e, ts, [Event.getTableE db tbl]⟩
    | .ok t =>
      let numCols := t.sd.cols.length
      let newCols := t.sd.cols.filter (fun c => c.name != col)
      if (newCols.length : Int) - 1 = (numCols : Int) then
        ⟨.ok (), ts,
          [Event.getTableE db tbl, Event.alterTableE db tbl newCols]⟩
      else
        ⟨.error (.hiveClientException "no such column"), ts,
          [Event.getTableE db tbl]⟩)

/-- The mutate-and-submit loop of `alter_column_type` (lines 187-192): the
source first collects `columns_to_alter` — the columns whose name matches
and whose type differs — then, for each in list order, sets its `type` and
submits the whole table. The k-th submit therefore snapshots the list with
the first k matches updated and everything after untouched; this single
left-to-right walk produces exactly those snapshots (each position is
examined once, against its original value). -/
def alterWalk (db tbl col dt : String) (done : List FieldSchema) :
    List FieldSchema → List FieldSchema × List Event
  | [] => (done, [])
  | c :: rest =>
    if c.name = col ∧ c.type ≠ dt then
      let c2 := { c with type := dt }
      let r := alterWalk db tbl col dt (done ++ [c2]) rest
      (r.1, Event.alterTableE db tbl (done ++ c2 :: rest) :: r.2)
    else
      alterWalk db tbl col dt (done ++ [c]) rest

/-- `HiveClient.alter_column_type` (lines 165-192): fetch the table; raise
when no column has the requested name; otherwise update-and-submit once per
column whose name matches and whose type differs (zero submits when every
matching column already has the requested type). The `comment` parameter is
accepted and unused, as in the source. -/
def alter_column_type (env : MetastoreEnv) (db tbl col dt _cm : String) :
    TState → Res Unit :=
  openclose (fun ts =>
    match rpcGetTable env tbl with
    | .error e => ⟨.error e, ts, [Event.getTableE db tbl]⟩
    | .ok t =>
      if col ∈ t.sd.cols.map (fun c => c.name) then
        let r := alterWalk db tbl col dt [] t.sd.cols
        ⟨.ok (), ts, Event.getTableE db tbl :: r.2⟩
      else
        ⟨.error (.hiveClientException "no such column"), ts,
          [Event.getTableE db tbl]⟩)

/-- Is this event a schema submit (an `alter_table` RPC)? -/
def isAlterEv : Event → Bool
  | .alterTableE _ _ _ => true
  | _ => false

/-- The schema-submit events of a trace, in order. -/
def alterEvs (tr : List Event) : List Event := tr.filter isAlterEv

/-- A wrapped operation that performs one RPC and returns normally. -/
def okBody : TState → Res Unit := fun ts => ⟨.ok (), ts, [Event.getSchemaE]⟩

/-- A wrapped operation that raises. -/
def raiseBody : TState → Res Unit := fun ts => ⟨.error .userError, ts, []⟩

/-- A wrapped operation that records, as a trace datum, whether it observed
the transport open and pinned (`fetchNE 1` when `isOpen ∧ keep_open`). -/
def probeBody : TState → Res Unit := fun ts =>
  ⟨.ok (), ts, [Event.fetchNE (cond (ts.isOpen && ts.keep_open) 1 0)]⟩

/-- Sequencing of two client operations, Python style: run the second only
when the first returned normally; an exception propagates immediately. -/
def seqR (f g : TState → Res Unit) : TState → Res Unit := fun ts =>
  let r := f ts
  match r.val with
  | .error e => ⟨.error e, r.st, r.tr⟩
  | .ok _ =>
    let r2 := g r.st
    ⟨r2.val, r2.st, r.tr ++ r2.tr⟩

/-- Assigning `d[k] = v` when `k` is not yet a key appends the pair. -/
theorem pyDictInsert_of_not_mem (d : Record) (k v : String)
    (h : ∀ p ∈ d, p.1 ≠ k) : pyDictInsert d k v = d ++ [(k, v)] := by
  have hb : d.any (fun p => p.1 == k) = false := by
    simp only [List.any_eq_false, beq_iff_eq]
    exact h
  simp [pyDictInsert, hb]

/-- Folding pairs with pairwise-distinct keys into a dict that is disjoint
from them just appends the pairs. -/
theorem pyDict_foldl_of_nodup :
    ∀ (pairs acc : Record),
      (∀ p ∈ acc, ∀ q ∈ pairs, p.1 ≠ q.1) →
      (pairs.map Prod.fst).Nodup →
      pairs.foldl (fun d p => pyDictInsert d p.1 p.2) acc = acc ++ pairs
  | [], acc, _, _ => by simp
  | q :: rest, acc, hdisj, hnd => by
    have h1 : ∀ p ∈ acc, p.1 ≠ q.1 := fun p hp => hdisj p hp q (by simp)
    have hnd1 : (q.1 :: rest.map Prod.fst).Nodup := by
      rw [List.map_cons] at hnd; exact hnd
    have hq : q.1 ∉ rest.map Prod.fst := (List.nodup_cons.mp hnd1).1
    have hdisj2 : ∀ p ∈ acc ++ [q], ∀ r ∈ rest, p.1 ≠ r.1 := by
      intro p hp r hr
      rcases List.mem_append.mp hp with h | h
      · exact hdisj p h r (List.mem_cons_of_mem _ hr)
      · have : p = q := by simpa using h
        subst this
        intro hpe
        exact hq (hpe ▸ List.mem_map_of_mem Prod.fst hr)
    have hnd2 : (rest.map Prod.fst).Nodup := (List.nodup_cons.mp hnd1).2
    rw [List.foldl_cons, pyDictInsert_of_not_mem acc q.1 q.2 h1,
      pyDict_foldl_of_nodup rest (acc ++ [q]) hdisj2 hnd2]
    simp

/-- `dict(pairs)` with pairwise-distinct keys is the pairs themselves. -/
theorem pyDict_of_nodup (pairs : Record) (h : (pairs.map Prod.fst).Nodup) :
    pyDict pairs = pairs := by
  simpa [pyDict] using pyDict_foldl_of_nodup pairs [] (by simp) h

/-- The keys of `zip names vals` form a sublist of `names`. -/
theorem map_fst_zip_sublist :
    ∀ (l1 : List String) (l2 : List String),
      ((l1.zip l2).map Prod.fst).Sublist l1
  | [], _ => by simp
  | _ :: _, [] => by simp
  | a :: l1, b :: l2 => by
    simpa using (map_fst_zip_sublist l1 l2).cons₂ a

/-- With distinct field names, a yielded record has one entry per zipped
pair: `min` of the name count and the tab-split value count. -/
theorem mkRecord_length (names : List String) (row : String)
    (h : names.Nodup) :
    (mkRecord names row).length = min names.length (pySplitTab row).length := by
  unfold mkRecord
  rw [pyDict_of_nodup _ ((map_fst_zip_sublist names (pySplitTab row)).nodup h)]
  exact List.length_zip ..

/-- The fetch loop yields exactly one record per consumed row, in order,
every record built with the same fixed field-name list. -/
theorem fetchLoop_records (names : List String) :
    ∀ batches,
      (fetchLoop names batches).1 = (yieldedRows batches).map (mkRecord names)
  | [] => by simp [fetchLoop, yieldedRows]
  | b :: rest => by
    by_cases hb : b = []
    · simp [fetchLoop, yieldedRows, hb]
    · simp [fetchLoop, yieldedRows, hb, fetchLoop_records names rest]

/-- When no remaining column matches (name equal, type differing), the
mutate-and-submit walk changes nothing and submits nothing. -/
theorem alterWalk_no_match (db tbl col dt : String) :
    ∀ (rest done : List FieldSchema),
      (∀ c ∈ rest, ¬(c.name = col ∧ c.type ≠ dt)) →
      alterWalk db tbl col dt done rest = (done ++ rest, [])
  | [], done, _ => by simp [alterWalk]
  | c :: rest, done, h => by
    have hc : ¬(c.name = col ∧ c.type ≠ dt) := h c (by simp)
    rw [alterWalk, if_neg hc,
      alterWalk_no_match db tbl col dt rest (done ++ [c])
        (fun x hx => h x (List.mem_cons_of_mem _ hx))]
    simp

/-- The walk skips over a prefix without matches. -/
theorem alterWalk_skip (db tbl col dt : String) :
    ∀ (pre rest done : List FieldSchema),
      (∀ c ∈ pre, ¬(c.name = col ∧ c.type ≠ dt)) →
      alterWalk db tbl col dt done (pre ++ rest)
        = alterWalk db tbl col dt (done ++ pre) rest
  | [], rest, done, _ => by simp
  | c :: pre, rest, done, h => by
    have hc : ¬(c.name = col ∧ c.type ≠ dt) := h c (by simp)
    rw [List.cons_append, alterWalk, if_neg hc,
      alterWalk_skip db tbl col dt pre rest (done ++ [c])
        (fun x hx => h x (List.mem_cons_of_mem _ hx))]
    simp

/-- With exactly one column of the requested name, and its type differing,
the walk updates that column in place and submits once. -/
theorem alterWalk_unique (db tbl col dt : String)
    (pre post : List FieldSchema) (c : FieldSchema)
    (hn : c.name = col) (ht : c.type ≠ dt)
    (hpre : col ∉ pre.map (fun x => x.name))
    (hpost : col ∉ post.map (fun x => x.name)) :
    alterWalk db tbl col dt [] (pre ++ c :: post)
      = (pre ++ { c with type := dt } :: post,
         [Event.alterTableE db tbl (pre ++ { c with type := dt } :: post)]) := by
  have hpre2 : ∀ x ∈ pre, ¬(x.name = col ∧ x.type ≠ dt) := by
    intro x hx hand
    exact hpre (hand.1 ▸ List.mem_map_of_mem (fun x => x.name) hx)
  have hpost2 : ∀ x ∈ post, ¬(x.name = col ∧ x.type ≠ dt) := by
    intro x hx hand
    exact hpost (hand.1 ▸ List.mem_map_of_mem (fun x => x.name) hx)
  rw [alterWalk_skip db tbl col dt pre (c :: post) [] hpre2, alterWalk,
    if_pos ⟨hn, ht⟩]
  simp [alterWalk_no_match db tbl col dt post (pre ++ [{ c with type := dt }]) hpost2]

/-- Full characterization of `alter_column_type` on a closed transport, once
the table is known: raise without submitting when the name is absent,
otherwise run the mutate-and-submit walk inside one open/close scope. -/
theorem alter_column_type_reduce (env : MetastoreEnv) (db tbl col dt cm : String)
    (cols : List FieldSchema)
    (hlk : env.tables.lookup tbl = some ⟨⟨cols⟩⟩) :
    alter_column_type env db tbl col dt cm ⟨false, false⟩ =
      if col ∈ cols.map (fun c => c.name) then
        ⟨.ok (), ⟨false, false⟩,
          Event.openT :: Event.getTableE db tbl ::
            ((alterWalk db tbl col dt [] cols).2 ++ [Event.closeT])⟩
      else
        ⟨.error (.hiveClientException "no such column"), ⟨true, false⟩,
          [Event.openT, Event.getTableE db tbl]⟩ := by
  by_cases h : col ∈ cols.map (fun c => c.name)
  · simp [alter_column_type, openclose, rpcGetTable, hlk, h]
  · simp [alter_column_type, openclose, rpcGetTable, hlk, h]

/-- C7: `alter_column_type` raises `ColumnNotFoundError` (as
`HiveClientException`) and submits nothing when no column has the requested
name; with the column present and every occurrence already of the requested
type it returns normally with zero `alter_table` submits; with the column
present exactly once and of a differing type it submits exactly one revised
schema, equal to the old one with that column's type replaced. -/
theorem alter_column_type_spec (env : MetastoreEnv) (db tbl col dt cm : String)
    (cols : List FieldSchema)
    (hlk : env.tables.lookup tbl = some ⟨⟨cols⟩⟩) :
    ((col ∉ cols.map (fun c => c.name)) →
       (alter_column_type env db tbl col dt cm ⟨false, false⟩).val
           = .error (.hiveClientException "no such column")
       ∧ alterEvs (alter_column_type env db tbl col dt cm ⟨false, false⟩).tr = [])
    ∧ ((col ∈ cols.map (fun c => c.name)) →
       (∀ c ∈ cols, c.name = col → c.type = dt) →
       (alter_column_type env db tbl col dt cm ⟨false, false⟩).val = .ok ()
       ∧ alterEvs (alter_column_type env db tbl col dt cm ⟨false, false⟩).tr = [])
    ∧ (∀ pre c post, cols = pre ++ c :: post → c.name = col → c.type ≠ dt →
       col ∉ pre.map (fun x : FieldSchema => x.name) →
       col ∉ post.map (fun x : FieldSchema => x.name) →
       (alter_column_type env db tbl col dt cm ⟨false, false⟩).val = .ok ()
       ∧ alterEvs (alter_column_type env db tbl col dt cm ⟨false, false⟩).tr
           = [Event.alterTableE db tbl (pre ++ { c with type := dt } :: post)]) := by
  rw [alter_column_type_reduce env db tbl col dt cm cols hlk]
  refine ⟨fun habs => ?_, fun hmem hall => ?_,
    fun pre c post hcols hn ht hpre hpost => ?_⟩
  · rw [if_neg habs]
    exact ⟨rfl, rfl⟩
  · rw [if_pos hmem,
      alterWalk_no_match db tbl col dt cols []
        (fun c hc hand => hand.2 (hall c hc hand.1))]
    exact ⟨rfl, rfl⟩
  · subst hcols
    have hmem : col ∈ (pre ++ c :: post).map (fun x : FieldSchema => x.name) := by
      rw [← hn]
      exact List.mem_map_of_mem (fun x : FieldSchema => x.name)
        (List.mem_append_right pre (List.mem_cons_self c post))
    rw [if_pos hmem, alterWalk_unique db tbl col dt pre post c hn ht hpre hpost]
    refine ⟨rfl, ?_⟩
    simp [alterEvs, isAlterEv]

/-- Witness for C7: altering the unique column `x : int` of a one-column
table to `string` succeeds and submits exactly the schema `[x : string]`. -/
theorem alter_column_type_spec_witness :
    (alter_column_type ⟨["d"], [("t", ⟨⟨[⟨"x", "int", ""⟩]⟩⟩)]⟩ "d" "t" "x" "string" ""
        ⟨false, false⟩).val = .ok ()
    ∧ alterEvs (alter_column_type ⟨["d"], [("t", ⟨⟨[⟨"x", "int", ""⟩]⟩⟩)]⟩ "d" "t" "x" "string" ""
        ⟨false, false⟩).tr = [Event.alterTableE "d" "t" [⟨"x", "string", ""⟩]] :=
  (alter_column_type_spec ⟨["d"], [("t", ⟨⟨[⟨"x", "int", ""⟩]⟩⟩)]⟩ "d" "t" "x" "string" ""
      [⟨"x", "int", ""⟩] rfl).2.2
    [] ⟨"x", "int", ""⟩ [] rfl rfl (by decide) (by decide) (by decide)

/-- C8: construction opens the connection exactly once, issues a single
`get_database` existence check, and closes it again via `openclose`; when
the database is absent the check raises, so construction fails and no
client value exists on which another method could be called. -/
theorem clientInit_spec (env : MetastoreEnv) (db : String) :
    clientInit env db =
      if env.databases.contains db then
        ⟨.ok (), ⟨false, false⟩, [.openT, .getDatabaseE db, .closeT]⟩
      else
        ⟨.error .thriftNoSuchObject, ⟨true, false⟩, [.openT, .getDatabaseE db]⟩ := by
  by_cases h : db ∈ env.databases <;>
    simp [clientInit, openclose, h]

/-- Witness for C8: construction succeeds against an existing database with
the trace open / check / close, and fails hard against an absent one. -/
theorem clientInit_spec_witness :
    clientInit ⟨["default"], []⟩ "default" =
      ⟨.ok (), ⟨false, false⟩, [.openT, .getDatabaseE "default", .closeT]⟩
    ∧ clientInit ⟨["default"], []⟩ "nope" =
      ⟨.error .thriftNoSuchObject, ⟨true, false⟩, [.openT, .getDatabaseE "nope"]⟩ :=
  ⟨(clientInit_spec ⟨["default"], []⟩ "default").trans rfl,
   (clientInit_spec ⟨["default"], []⟩ "nope").trans rfl⟩

/-- C9 (amended): the field-name list is fixed for the lifetime of one
cursor — every record of one `execute` call is built from the same name
list — and, with distinct field names, each record has exactly
`min(number of field names, number of tab-split values)` entries: as many
entries as field names when the row has enough values (excess values are
dropped by `zip`), and one entry per value when the row falls short. -/
theorem execute_fixed_names_record_sizes (srv : Server) (q : String)
    (h : srv.fieldNames.Nodup) :
    (executeGen srv q).1 = (yieldedRows srv.batches).map (mkRecord srv.fieldNames)
    ∧ ∀ row : String, (mkRecord srv.fieldNames row).length
        = min srv.fieldNames.length (pySplitTab row).length :=
  ⟨fetchLoop_records srv.fieldNames srv.batches,
   fun row => mkRecord_length srv.fieldNames row h⟩

/-- Witness for C9: with field names `a`, `b` and the single row `1`, the
yielded record has `min 2 1 = 1` entry. -/
theorem execute_record_sizes_witness :
    (["a", "b"] : List String).Nodup
    ∧ (mkRecord ["a", "b"] "1").length
        = min (["a", "b"] : List String).length (pySplitTab "1").length :=
  ⟨by decide,
   (execute_fixed_names_record_sizes ⟨["a", "b"], [["1"]]⟩ "q" (by decide)).2 "1"⟩

/-- C9 (counterexample): for schema field names `["a", "b"]` and the server
row `"1"` (one tab-split value, fewer than the two field names), the record
yielded by `execute` is `[("a", "1")]` — one entry, not as many entries as
there are field names. -/
theorem execute_short_row_counterexample :
    (executeGen ⟨["a", "b"], [["1"]]⟩ "q").1 = [[("a", "1")]]
    ∧ ((executeGen ⟨["a", "b"], [["1"]]⟩ "q").1.headD []).length ≠
        (Server.fieldNames ⟨["a", "b"], [["1"]]⟩).length :=
  ⟨rfl, by decide⟩

/-- C1: against a server reporting field names `["a", "b"]` and serving the
batch `["1\t2", "3\t4"]` and then the empty batch, `execute` yields exactly
the records `a=1, b=2` then `a=3, b=4` and terminates; the trace shows every
fetch requested exactly 500 rows and no fetch after the one that returned
the empty batch. -/
theorem execute_stream_spec :
    execute ⟨["a", "b"], [["1\t2", "3\t4"], []]⟩ "q" ⟨false, false⟩ =
      ⟨.ok [[("a", "1"), ("b", "2")], [("a", "3"), ("b", "4")]], ⟨false, false⟩,
        [.openT, .executeE "q", .getSchemaE, .fetchNE 500, .fetchNE 500, .closeT]⟩ := rfl

/-- C2: with `keep_open` falsy, `openclose` opens before the operation and
closes after it on the normal path; but when the wrapped operation raises,
the exception propagates at the unprotected `yield` and the transport is
left open — no `closeT` ever happens on that exit path. -/
theorem openclose_exception_path :
    openclose okBody ⟨false, false⟩
        = ⟨.ok (), ⟨false, false⟩, [.openT, .getSchemaE, .closeT]⟩
    ∧ openclose raiseBody ⟨false, false⟩
        = ⟨.error .userError, ⟨true, false⟩, [.openT]⟩ :=
  ⟨rfl, rfl⟩

/-- C3: `session` opens the transport and sets `keep_open` before yielding
(the probe observes both), and on the normal path closes and resets; but
when the caller's block raises, neither the close nor the `keep_open` reset
is executed — the transport stays open and pinned. -/
theorem session_exception_path :
    session probeBody ⟨false, false⟩
        = ⟨.ok (), ⟨false, false⟩, [.openT, .fetchNE 1, .closeT]⟩
    ∧ session raiseBody ⟨false, false⟩
        = ⟨.error .userError, ⟨true, true⟩, [.openT]⟩ :=
  ⟨rfl, rfl⟩

/-- C6: inside a session the nested `openclose` scopes perform zero open or
close transitions (the only `openT`/`closeT` in the trace are the session's
own, one of each) — but when an operation inside the session raises, the
session performs zero closes, not exactly one, and leaves `keep_open` set. -/
theorem session_nested_openclose :
    session (seqR (openclose okBody) (openclose okBody)) ⟨false, false⟩ =
      ⟨.ok (), ⟨false, false⟩, [.openT, .getSchemaE, .getSchemaE, .closeT]⟩
    ∧ session (seqR (openclose okBody) (openclose raiseBody)) ⟨false, false⟩ =
      ⟨.error .userError, ⟨true, true⟩, [.openT, .getSchemaE]⟩ :=
  ⟨rfl, rfl⟩

/-- C4: `remove_column` raises and performs no `alter_table` submit even
when the column exists — its success test compares `len(new_cols) - 1`
against the old length, which filtering can never satisfy — and it also
raises, without submitting, when the column is absent. -/
theorem remove_column_never_submits :
    remove_column ⟨["d"], [("t", ⟨⟨[⟨"x", "int", ""⟩]⟩⟩)]⟩ "d" "t" "x" ⟨false, false⟩ =
      ⟨.error (.hiveClientException "no such column"), ⟨true, false⟩,
        [.openT, .getTableE "d" "t"]⟩
    ∧ remove_column ⟨["d"], [("t", ⟨⟨[⟨"x", "int", ""⟩]⟩⟩)]⟩ "d" "t" "zz" ⟨false, false⟩ =
      ⟨.error (.hiveClientException "no such column"), ⟨true, false⟩,
        [.openT, .getTableE "d" "t"]⟩ :=
  ⟨rfl, rfl⟩

/-- C5: adding a column whose name is already present does not raise — the
membership test compares a string against `FieldSchema` objects and never
fires — so the client appends a duplicate column and submits the schema
with the name present twice; on a genuinely new name it appends at the end
and submits, as the claim says. -/
theorem add_column_never_raises :
    add_column ⟨["d"], [("t", ⟨⟨[⟨"y", "string", ""⟩]⟩⟩)]⟩ "d" "t" "y" "string" ""
        ⟨false, false⟩ =
      ⟨.ok (), ⟨false, false⟩,
        [.openT, .getTableE "d" "t",
         .alterTableE "d" "t" [⟨"y", "string", ""⟩, ⟨"y", "string", ""⟩], .closeT]⟩
    ∧ add_column ⟨["d"], [("t", ⟨⟨[⟨"x", "int", ""⟩]⟩⟩)]⟩ "d" "t" "y" "string" ""
        ⟨false, false⟩ =
      ⟨.ok (), ⟨false, false⟩,
        [.openT, .getTableE "d" "t",
         .alterTableE "d" "t" [⟨"x", "int", ""⟩, ⟨"y", "string", ""⟩], .closeT]⟩ :=
  ⟨rfl, rfl⟩

end HiveUtils
